import Mathlib

/-! Verification of the IPFS document-loading utilities.

Shallow embedding of the three source files
`langchain/document_loaders/ipfs_directory.py`,
`langchain/document_loaders/ipfs_file.py` and
`langchain/utilities/ipfs.py`, together with theorems settling the
specification claims about them.

Modelling conventions:
* The network is a parameter: one HTTP POST attempt is an `Attempt α`
  (either a connection error or a response carrying a status code and a
  body), and a whole session is `attempts : Nat → Attempt α` giving the
  outcome of the i-th attempt.
* Python exceptions are `Except String`; the retry loops return a
  `LoopTrace` recording the result, the number of attempts consumed and
  the number of `time.sleep(retry_delay)` calls executed.
* Bytes are abstracted as `String`; the external `magic` sniffer and the
  external PDF/CSV/JSON parsing libraries are parameters.
-/

instance {ε α : Type} [DecidableEq ε] [DecidableEq α] : DecidableEq (Except ε α) :=
  fun a b =>
    match a, b with
    | .error e, .error f => decidable_of_iff (e = f) (by simp)
    | .error _, .ok _ => isFalse (by simp)
    | .ok _, .error _ => isFalse (by simp)
    | .ok a, .ok b => decidable_of_iff (a = b) (by simp)

/-- The class constants shared by all three components. -/
def max_retries : Nat := 5

/-- The constant retry_delay, in seconds (the fixed sleep between retries). -/
def retry_delay : Nat := 1

/-- The Python substring test `pat in s`, on the underlying character lists. -/
def strContains (s pat : String) : Bool :=
  (List.range (s.toList.length + 1)).any
    (fun i => List.isPrefixOf pat.toList (s.toList.drop i))

/-- Outcome of one `requests.post` call: either
`requests.exceptions.ConnectionError`, or a response with an HTTP status
code and a body of type `α`. -/
inductive Attempt (α : Type) where
  | connError : Attempt α
  | response (status : Nat) (body : α) : Attempt α

/-- The test `requests.Response.ok`: true for status codes below 400. -/
def responseOk (status : Nat) : Bool := status < 400

/-- Result of one of the retry loops: the value returned or the message of
the exception raised, plus the number of HTTP attempts actually made and
the number of sleeps executed. -/
structure LoopTrace (α : Type) where
  result : Except String α
  attemptsMade : Nat
  sleeps : Nat
deriving DecidableEq

/-- A `langchain.docstore.document.Document`: page content plus a
string-keyed metadata mapping (modelled as an association list where the
most recent assignment is first). -/
structure Document where
  page_content : String
  metadata : List (String × String)
deriving DecidableEq

/-- Python dict assignment `doc.metadata[k] = v`, newest binding first. -/
def setMeta (d : Document) (k v : String) : Document :=
  { d with metadata := (k, v) :: d.metadata.filter (fun p => p.1 ≠ k) }

/-- Lookup of `doc.metadata[k]`. -/
def getMeta (d : Document) (k : String) : Option String :=
  (d.metadata.find? (fun p => p.1 = k)).map Prod.snd

/-- The four reader functions `select_reader` can return. -/
inductive Reader where
  | pdfR | csvR | jsonR | txtR
deriving DecidableEq

/-- The function `select_reader` from `ipfs_file.py`: substring dispatch on the sniffed
MIME string, raising on unsupported types. -/
def select_reader (file_type : String) : Except String Reader :=
  if strContains file_type "pdf" then .ok .pdfR
  else if strContains file_type "csv" then .ok .csvR
  else if strContains file_type "json" then .ok .jsonR
  else if strContains file_type "text" then .ok .txtR
  else .error ("Unsupported file type: " ++ file_type)

/-- What a reader returns: `pdf_reader`, `txt_reader` and `json_reader`
return a string, `csv_reader` returns a list of documents. -/
inductive ReaderResult where
  | rstr : String → ReaderResult
  | rdocs : List Document → ReaderResult
deriving DecidableEq

/-- The union `Union[Document, list[Document]]`, the return type of
`IPFSFileDataLoader.load`. -/
inductive FileLoadResult where
  | single : Document → FileLoadResult
  | multi : List Document → FileLoadResult
deriving DecidableEq

namespace IPFSDirectoryDataLoader

/-- The `for i in range(max_retries)` loop of
`IPFSDirectoryDataLoader.check_daemon_running`: a 200 status returns, any
other status raises at once, a connection error sleeps and retries. -/
def checkDaemonLoop (attempts : Nat → Attempt Unit) :
    Nat → Nat → LoopTrace Unit
  | _, 0 => ⟨.error "IPFS daemon not running or not accessible", 0, 0⟩
  | i, r + 1 =>
    match attempts i with
    | .connError =>
      let t := checkDaemonLoop attempts (i + 1) r
      ⟨t.result, t.attemptsMade + 1, t.sleeps + 1⟩
    | .response s _ =>
      if s = 200 then ⟨.ok (), 1, 0⟩
      else ⟨.error "IPFS daemon not running or not accessible", 1, 0⟩

/-- Model of `IPFSDirectoryDataLoader.check_daemon_running`. -/
def check_daemon_running (attempts : Nat → Attempt Unit) : LoopTrace Unit :=
  checkDaemonLoop attempts 0 max_retries

/-- The retry loop of `IPFSDirectoryDataLoader.get_dag_get`, polymorphic in
the DAG-node body type: status 200 returns the body, any other status
raises `Failed to get DAG ...` at once, a connection error sleeps and
retries, and exhausting the loop raises `Could not get DAG ...`. -/
def dagGetLoop {α : Type} (attempts : Nat → Attempt α) (ipfs_hash : String) :
    Nat → Nat → LoopTrace α
  | _, 0 => ⟨.error ("Could not get DAG for " ++ ipfs_hash), 0, 0⟩
  | i, r + 1 =>
    match attempts i with
    | .connError =>
      let t := dagGetLoop attempts ipfs_hash (i + 1) r
      ⟨t.result, t.attemptsMade + 1, t.sleeps + 1⟩
    | .response s body =>
      if s = 200 then ⟨.ok body, 1, 0⟩
      else ⟨.error ("Failed to get DAG for " ++ ipfs_hash
              ++ " with status code " ++ toString s), 1, 0⟩

/-- Model of `IPFSDirectoryDataLoader.get_dag_get`. -/
def get_dag_get {α : Type} (attempts : Nat → Attempt α) (ipfs_hash : String) :
    LoopTrace α :=
  dagGetLoop attempts ipfs_hash 0 max_retries

end IPFSDirectoryDataLoader

namespace IPFSFileDataLoader

/-- The `for i in range(max_retries)` loop of `IPFSFileDataLoader.load`.
On an `ok` response the body is sniffed, a reader selected (an unsupported
type raises out of the loop, since only `ConnectionError` is caught) and
the result wrapped as a document or document list with `ipfs_hash` and
`file_type` metadata. On a non-`ok` response the error is logged and the
loop simply continues with the next attempt, without sleeping. On a
connection error the loop sleeps and retries. Exhausting the loop raises
`Failed to connect to IPFS daemon for hash ...`. -/
def loadLoop (sniff : String → String) (run : Reader → String → ReaderResult)
    (attempts : Nat → Attempt String) (ipfs_hash : String) :
    Nat → Nat → LoopTrace FileLoadResult
  | _, 0 => ⟨.error ("Failed to connect to IPFS daemon for hash " ++ ipfs_hash), 0, 0⟩
  | i, r + 1 =>
    match attempts i with
    | .connError =>
      let t := loadLoop sniff run attempts ipfs_hash (i + 1) r
      ⟨t.result, t.attemptsMade + 1, t.sleeps + 1⟩
    | .response s content =>
      if responseOk s then
        match select_reader (sniff content) with
        | .error e => ⟨.error e, 1, 0⟩
        | .ok reader =>
          match run reader content with
          | .rstr text =>
            ⟨.ok (.single ⟨text, [("ipfs_hash", ipfs_hash),
                ("file_type", sniff content)]⟩), 1, 0⟩
          | .rdocs docs =>
            ⟨.ok (.multi (docs.map (fun d => setMeta d "ipfs_hash" ipfs_hash))), 1, 0⟩
      else
        let t := loadLoop sniff run attempts ipfs_hash (i + 1) r
        ⟨t.result, t.attemptsMade + 1, t.sleeps⟩

/-- Model of `IPFSFileDataLoader.load`. -/
def load (sniff : String → String) (run : Reader → String → ReaderResult)
    (attempts : Nat → Attempt String) (ipfs_hash : String) :
    LoopTrace FileLoadResult :=
  loadLoop sniff run attempts ipfs_hash 0 max_retries

/-- The retry loop of `IPFSFileDataLoader.check_daemon_running` (identical
to that of the directory loader, except that it tests `response.ok` rather than
`status_code == 200`). -/
def checkDaemonLoop (attempts : Nat → Attempt Unit) :
    Nat → Nat → LoopTrace Unit
  | _, 0 => ⟨.error "IPFS daemon not running or not accessible", 0, 0⟩
  | i, r + 1 =>
    match attempts i with
    | .connError =>
      let t := checkDaemonLoop attempts (i + 1) r
      ⟨t.result, t.attemptsMade + 1, t.sleeps + 1⟩
    | .response s _ =>
      if responseOk s then ⟨.ok (), 1, 0⟩
      else ⟨.error "IPFS daemon not running or not accessible", 1, 0⟩

/-- Model of `IPFSFileDataLoader.check_daemon_running`. -/
def check_daemon_running (attempts : Nat → Attempt Unit) : LoopTrace Unit :=
  checkDaemonLoop attempts 0 max_retries

end IPFSFileDataLoader

/-- A link in a DAG node: `link.get("Hash", {}).get("/")` (which is `None`
when the key chain is absent) and `link.get("Name", "")`. -/
structure Link where
  hash : Option String
  name : String
deriving DecidableEq

/-- A DAG node as parsed from the `dag/get` JSON: `dag_data.get("Links", [])`. -/
structure DagNode where
  links : List Link
deriving DecidableEq

/-- Python truthiness of `link_hash` (`if link_hash:`): neither `None` nor
the empty string. -/
def linkTruthy : Option String → Bool
  | none => false
  | some s => s != ""

/-- The string carried by a truthy hash (with `""` standing in for `None`). -/
def theHash : Option String → String
  | none => ""
  | some s => s

/-- The helper `has_file_extension` from `recursive_dag_get`: a period occurs in the name. -/
def hasFileExtension (name : String) : Bool := strContains name "."

namespace IPFSDirectoryDataLoader

/-- The body of the `for link in links` loop of
`recursive_dag_get_helper`, with the recursive call abstracted as `next`:
every link with a truthy hash is recursed into, and every link with a
truthy hash, nonempty name and a period in the name is appended to the
file list after the recursion below it returns. The second component is
the trace of hashes on which `get_dag_get` is invoked; `none` signals
that the recursion ran out of fuel. -/
def recDagLinks (next : String → Option (List (String × String) × List String)) :
    List Link → Option (List (String × String) × List String)
  | [] => some ([], [])
  | l :: rest =>
    match (if linkTruthy l.hash then next (theHash l.hash) else some ([], [])) with
    | none => none
    | some (sfiles, scalls) =>
      match recDagLinks next rest with
      | none => none
      | some (rfiles, rcalls) =>
        some (sfiles
            ++ (if linkTruthy l.hash && (l.name != "") && hasFileExtension l.name
                then [(theHash l.hash, l.name)] else [])
            ++ rfiles,
          scalls ++ rcalls)

/-- The helper `recursive_dag_get_helper`, fuel-bounded. The remote structure is the
parameter `dag` (an always-successful `dag/get`); the result is the file
list together with the trace of hashes fetched, or `none` when the fuel
bound is hit. Each call fetches its own node first, then walks the links. -/
def recDagNode (dag : String → DagNode) :
    Nat → String → Option (List (String × String) × List String)
  | 0, _ => none
  | fuel + 1, h =>
    match recDagLinks (recDagNode dag fuel) (dag h).links with
    | none => none
    | some (files, calls) => some (files, h :: calls)

/-- Model of `IPFSDirectoryDataLoader.recursive_dag_get`: the collected
`(hash, name)` pairs. -/
def recursive_dag_get (dag : String → DagNode) (fuel : Nat) (ipfs_hash : String) :
    Option (List (String × String)) :=
  (recDagNode dag fuel ipfs_hash).map Prod.fst

/-- The trace of hashes on which `get_dag_get` is invoked during
`recursive_dag_get`. -/
def dagGetCalls (dag : String → DagNode) (fuel : Nat) (ipfs_hash : String) :
    Option (List String) :=
  (recDagNode dag fuel ipfs_hash).map Prod.snd

/-- The assignment `doc.metadata["source"] = name` applied to the value returned by the
file loader: on a single document directly, on a list to each element. -/
def setSource : FileLoadResult → String → FileLoadResult
  | .single d, n => .single (setMeta d "source" n)
  | .multi ds, n => .multi (ds.map (fun d => setMeta d "source" n))

/-- The `for hash, name in all_files` loop of
`IPFSDirectoryDataLoader.load`: each file is loaded with the file loader
(abstracted as `fileload`); on success the link name is written as
`source` metadata and the value appended to `results`; an exception is
logged and the file skipped. -/
def loadFilesAux (fileload : String → Except String FileLoadResult)
    (results : List FileLoadResult) :
    List (String × String) → List FileLoadResult
  | [] => results
  | (h, n) :: rest =>
    match fileload h with
    | .error _ => loadFilesAux fileload results rest
    | .ok d => loadFilesAux fileload (results ++ [setSource d n]) rest

/-- Model of `IPFSDirectoryDataLoader.load`: traverse the DAG, then load each
collected file, skipping failures. -/
def load (dag : String → DagNode) (fileload : String → Except String FileLoadResult)
    (fuel : Nat) (ipfs_hash : String) : Option (List FileLoadResult) :=
  (recursive_dag_get dag fuel ipfs_hash).map (loadFilesAux fileload [])

end IPFSDirectoryDataLoader

/-- A link under the root in `get_vectorstore_from_ipfs`: the Name field
and the Hash field (accessed by direct indexing). -/
structure VLink where
  name : String
  hash : String
deriving DecidableEq

/-- How `get_vectorstore_from_ipfs` can fail in the modelled prefix:
the `assert len(links) == 2`, or an `UnboundLocalError` naming the
variable read before assignment. -/
inductive RestoreError where
  | assertionError : RestoreError
  | unboundLocal : String → RestoreError
deriving DecidableEq

/-- The reconstructed vector store, abstracted as the raw bytes fetched
for the index and the docstore (the external `faiss.read_index` /
`pickle.loads` decoding is out of scope). -/
structure VSModel where
  indexData : String
  docstoreData : String
deriving DecidableEq

/-- Result of a restore, together with the list of hashes actually
downloaded through `cat` requests. -/
structure RestoreTrace where
  result : Except RestoreError VSModel
  downloads : List String
deriving DecidableEq

namespace IPFSFAISSUtils

/-- The `for link in links` binding loop of `get_vectorstore_from_ipfs`
for one variable: the hash of the last link whose name contains `key`,
or `none` when no assignment happened. -/
def bindVar (links : List VLink) (key : String) : Option String :=
  links.foldl (fun acc l => if strContains l.name key then some l.hash else acc) none

/-- Model of `IPFSFAISSUtils.get_vectorstore_from_ipfs`, from the point where the
links of the root DAG node have been parsed: assert exactly two links, bind
`index_hash` and `docstore_hash` by substring match on the link names
(reading an unbound variable when the URL is built raises
`UnboundLocalError`, before any download), then download both hashes and
reconstruct the store. `cat` abstracts the content download. -/
def get_vectorstore_from_ipfs (links : List VLink) (cat : String → String) :
    RestoreTrace :=
  if links.length = 2 then
    match bindVar links "index" with
    | none => ⟨.error (.unboundLocal "index_hash"), []⟩
    | some index_hash =>
      match bindVar links "docstore" with
      | none => ⟨.error (.unboundLocal "docstore_hash"), []⟩
      | some docstore_hash =>
        ⟨.ok ⟨cat index_hash, cat docstore_hash⟩, [index_hash, docstore_hash]⟩
  else ⟨.error .assertionError, []⟩

/-- The retry loop of `IPFSFAISSUtils.check_daemon_running` (tests
`response.ok`, like the one of the file loader). -/
def checkDaemonLoop (attempts : Nat → Attempt Unit) :
    Nat → Nat → LoopTrace Unit
  | _, 0 => ⟨.error "IPFS daemon not running or not accessible", 0, 0⟩
  | i, r + 1 =>
    match attempts i with
    | .connError =>
      let t := checkDaemonLoop attempts (i + 1) r
      ⟨t.result, t.attemptsMade + 1, t.sleeps + 1⟩
    | .response s _ =>
      if responseOk s then ⟨.ok (), 1, 0⟩
      else ⟨.error "IPFS daemon not running or not accessible", 1, 0⟩

/-- Model of `IPFSFAISSUtils.check_daemon_running`. -/
def check_daemon_running (attempts : Nat → Attempt Unit) : LoopTrace Unit :=
  checkDaemonLoop attempts 0 max_retries

end IPFSFAISSUtils

/-- The constructor arguments shared by all three components. -/
structure InitConfig where
  use_infura : Bool
  infura_api_key : Option String
  infura_api_secret : Option String

/-- Python falsiness of a credential (`not self.infura_api_key`): `None`
or the empty string. -/
def credFalsy : Option String → Bool
  | none => true
  | some s => s == ""

/-- The `__init__` common to the three components: raise the
configuration `ValueError` when Infura mode lacks a credential, else run
the `check_daemon_running` of the component. Returns the outcome and the
number of HTTP attempts made. -/
def initTrace (checkDaemon : (Nat → Attempt Unit) → LoopTrace Unit)
    (cfg : InitConfig) (attempts : Nat → Attempt Unit) :
    Except String Unit × Nat :=
  if cfg.use_infura && (credFalsy cfg.infura_api_key || credFalsy cfg.infura_api_secret) then
    (.error "Infura API key and secret are required when using Infura", 0)
  else
    let t := checkDaemon attempts
    (t.result, t.attemptsMade)

/-- Model of `IPFSDirectoryDataLoader.__init__`. -/
def dirInit : InitConfig → (Nat → Attempt Unit) → Except String Unit × Nat :=
  initTrace IPFSDirectoryDataLoader.check_daemon_running

/-- Model of `IPFSFileDataLoader.__init__`. -/
def fileInit : InitConfig → (Nat → Attempt Unit) → Except String Unit × Nat :=
  initTrace IPFSFileDataLoader.check_daemon_running

/-- Model of `IPFSFAISSUtils.__init__`. -/
def utilsInit : InitConfig → (Nat → Attempt Unit) → Except String Unit × Nat :=
  initTrace IPFSFAISSUtils.check_daemon_running

/-- Number of occurrences of `t` in a list of hashes. -/
def countOcc (t : String) : List String → Nat
  | [] => 0
  | x :: rest => (if x = t then 1 else 0) + countOcc t rest

/-- Sum, over the links of one node, of a per-child quantity (zero for
links without a truthy hash). -/
def pathCountLinks (next : String → Nat) : List Link → Nat
  | [] => 0
  | l :: rest =>
    (if linkTruthy l.hash then next (theHash l.hash) else 0) + pathCountLinks next rest

/-- Number of directed paths (following truthy links, of length below
`fuel`) from `h` to `target` in the remote structure `dag`. -/
def pathCount (dag : String → DagNode) : Nat → String → String → Nat
  | 0, _, _ => 0
  | fuel + 1, h, target =>
    (if h = target then 1 else 0)
      + pathCountLinks (fun x => pathCount dag fuel x target) (dag h).links

/-- The `source` metadata of every document inside a file-load result. -/
def sourceOf : FileLoadResult → List (Option String)
  | .single d => [getMeta d "source"]
  | .multi ds => ds.map (fun d => getMeta d "source")

/-- A remote structure with a shared node: the root links to `A` and `B`,
both link to `C`, which links to `D`. `D` appears as a link target exactly
once (under `C`), yet lies below the doubly-linked node `C`. -/
def diamondDag : String → DagNode := fun h =>
  if h = "R" then ⟨[⟨some "A", ""⟩, ⟨some "B", ""⟩]⟩
  else if h = "A" then ⟨[⟨some "C", ""⟩]⟩
  else if h = "B" then ⟨[⟨some "C", ""⟩]⟩
  else if h = "C" then ⟨[⟨some "D", ""⟩]⟩
  else ⟨[]⟩

/-- A rank function witnessing that `diamondDag` is acyclic. -/
def diamondRank : String → Nat := fun h =>
  if h = "R" then 4 else if h = "A" then 3 else if h = "B" then 3
  else if h = "C" then 2 else if h = "D" then 1 else 0

/-- A remote structure whose root links to the file-named entry `a.txt`
(hash `A`), whose node in turn links to the file-named entry `b.txt`
(hash `B`, a leaf). -/
def chainDag : String → DagNode := fun h =>
  if h = "R" then ⟨[⟨some "A", "a.txt"⟩]⟩
  else if h = "A" then ⟨[⟨some "B", "b.txt"⟩]⟩
  else ⟨[]⟩

/-- A one-level directory: the root links to two leaf files with
extension-bearing names. -/
def flatDag : String → DagNode := fun h =>
  if h = "R" then ⟨[⟨some "A", "a.txt"⟩, ⟨some "B", "b.csv"⟩]⟩
  else ⟨[]⟩

/-! Helper lemmas -/

theorem strContains_append (a b : String) : strContains (a ++ b) b = true := by
  unfold strContains
  rw [List.any_eq_true]
  have hl : (a ++ b).toList = a.toList ++ b.toList := by simp [String.toList]
  refine ⟨a.toList.length, ?_, ?_⟩
  · rw [List.mem_range, hl, List.length_append]
    omega
  · rw [hl, List.drop_left]
    simp [List.isPrefixOf_iff_prefix]

theorem bindVar_foldl_none (key : String) (links : List VLink) :
    ∀ acc : Option String,
      links.foldl (fun acc l => if strContains l.name key then some l.hash else acc) acc
          = none ↔
        (acc = none ∧ ∀ l ∈ links, strContains l.name key = false) := by
  induction links with
  | nil => intro acc; simp
  | cons l rest ih =>
    intro acc
    rw [List.foldl_cons, ih]
    by_cases hc : strContains l.name key = true
    · simp [hc]
    · simp only [Bool.not_eq_true] at hc
      simp [hc]

theorem bindVar_none_iff (links : List VLink) (key : String) :
    IPFSFAISSUtils.bindVar links key = none ↔
      ∀ l ∈ links, strContains l.name key = false := by
  unfold IPFSFAISSUtils.bindVar
  rw [bindVar_foldl_none]
  simp

theorem loadFilesAux_eq (fileload : String → Except String FileLoadResult)
    (files : List (String × String)) :
    ∀ acc, IPFSDirectoryDataLoader.loadFilesAux fileload acc files =
      acc ++ files.filterMap (fun hn =>
        match fileload hn.1 with
        | .error _ => none
        | .ok d => some (IPFSDirectoryDataLoader.setSource d hn.2)) := by
  induction files with
  | nil => intro acc; simp [IPFSDirectoryDataLoader.loadFilesAux]
  | cons hn rest ih =>
    intro acc
    obtain ⟨h, n⟩ := hn
    cases hfl : fileload h with
    | error e => simp [IPFSDirectoryDataLoader.loadFilesAux, hfl, ih]
    | ok d => simp [IPFSDirectoryDataLoader.loadFilesAux, hfl, ih]

theorem dagGetLoop_all_conn {α : Type} (attempts : Nat → Attempt α) (h : String)
    (hc : ∀ j, attempts j = Attempt.connError) :
    ∀ r i, IPFSDirectoryDataLoader.dagGetLoop attempts h i r =
      ⟨Except.error ("Could not get DAG for " ++ h), r, r⟩ := by
  intro r
  induction r with
  | zero => intro i; rfl
  | succ r ih =>
    intro i
    simp [IPFSDirectoryDataLoader.dagGetLoop, hc i, ih (i + 1)]

theorem loadLoop_all_conn (sniff : String → String)
    (run : Reader → String → ReaderResult) (attempts : Nat → Attempt String)
    (h : String) (hc : ∀ j, attempts j = Attempt.connError) :
    ∀ r i, IPFSFileDataLoader.loadLoop sniff run attempts h i r =
      ⟨Except.error ("Failed to connect to IPFS daemon for hash " ++ h), r, r⟩ := by
  intro r
  induction r with
  | zero => intro i; rfl
  | succ r ih =>
    intro i
    simp [IPFSFileDataLoader.loadLoop, hc i, ih (i + 1)]

/-! Claims -/

/-- Claim C2, counterexample. The claim states that `select_reader` returns
the CSV reader for *every* MIME string containing `"csv"`; the string
`"pdfcsv"` contains `"csv"` yet, because the `"pdf"` branch is tested
first, `select_reader` returns the PDF reader. -/
theorem C2_counterexample :
    strContains "pdfcsv" "csv" = true ∧
    select_reader "pdfcsv" = Except.ok Reader.pdfR ∧
    select_reader "pdfcsv" ≠ Except.ok Reader.csvR := by
  refine ⟨by decide, by decide, by decide⟩

/-- Claim C2, amended. `select_reader` dispatches by substring match in
priority order `pdf`, `csv`, `json`, `text`: it returns the PDF reader
for every string containing `"pdf"`; the CSV reader for every string
containing `"csv"` but not `"pdf"`; the JSON reader for every string
containing `"json"` but neither `"pdf"` nor `"csv"`; the text reader for
every string containing `"text"` but none of the earlier keys; and raises
the unsupported-file-type error for every other string. -/
theorem C2_amended (s : String) :
    (strContains s "pdf" = true → select_reader s = Except.ok Reader.pdfR) ∧
    (strContains s "pdf" = false → strContains s "csv" = true →
      select_reader s = Except.ok Reader.csvR) ∧
    (strContains s "pdf" = false → strContains s "csv" = false →
      strContains s "json" = true → select_reader s = Except.ok Reader.jsonR) ∧
    (strContains s "pdf" = false → strContains s "csv" = false →
      strContains s "json" = false → strContains s "text" = true →
      select_reader s = Except.ok Reader.txtR) ∧
    (strContains s "pdf" = false → strContains s "csv" = false →
      strContains s "json" = false → strContains s "text" = false →
      select_reader s = Except.error ("Unsupported file type: " ++ s)) := by
  unfold select_reader
  refine ⟨?_, ?_, ?_, ?_, ?_⟩ <;> intros <;> simp_all

/-- Claim C2, amended, witness. The amended dispatch evaluated on one
concrete string per branch. -/
theorem C2_amended_witness :
    select_reader "application/pdf" = Except.ok Reader.pdfR ∧
    select_reader "text/csv" = Except.ok Reader.csvR ∧
    select_reader "application/json" = Except.ok Reader.jsonR ∧
    select_reader "text/plain" = Except.ok Reader.txtR ∧
    select_reader "image/png" = Except.error ("Unsupported file type: " ++ "image/png") :=
  ⟨(C2_amended "application/pdf").1 (by decide),
   (C2_amended "text/csv").2.1 (by decide) (by decide),
   (C2_amended "application/json").2.2.1 (by decide) (by decide) (by decide),
   (C2_amended "text/plain").2.2.2.1 (by decide) (by decide) (by decide) (by decide),
   (C2_amended "image/png").2.2.2.2 (by decide) (by decide) (by decide) (by decide)⟩

/-- Claim C7. When the root of the DAG resolved during a vector-store
restore has a number of links other than two, `get_vectorstore_from_ipfs`
fails with the assertion error and performs no download at all, so no
partial reconstruction occurs. -/
theorem C7_assert_before_downloads (links : List VLink) (cat : String → String)
    (h : links.length ≠ 2) :
    IPFSFAISSUtils.get_vectorstore_from_ipfs links cat =
      ⟨Except.error RestoreError.assertionError, []⟩ := by
  unfold IPFSFAISSUtils.get_vectorstore_from_ipfs
  simp [h]

/-- Claim C7, witness. A concrete three-child root fails the assertion with
an empty download trace. -/
theorem C7_assert_before_downloads_witness :
    IPFSFAISSUtils.get_vectorstore_from_ipfs
      [⟨"a.index", "h1"⟩, ⟨"b.docstore", "h2"⟩, ⟨"c", "h3"⟩] (fun _ => "") =
      ⟨Except.error RestoreError.assertionError, []⟩ :=
  C7_assert_before_downloads _ _ (by decide)

/-- Claim C10. With exactly two links under the root: if no link name
contains `"index"`, restore fails with the `UnboundLocalError` for
`index_hash` (raised when the variable is first read, before any
download); if some name contains `"index"` but none contains
`"docstore"`, it fails likewise for `docstore_hash`; and the restore
reaches the reconstruction only when some link name contains `"index"`
and some link name contains `"docstore"`. -/
theorem C10_unbound_hash_vars (links : List VLink) (cat : String → String) :
    (links.length = 2 → (∀ l ∈ links, strContains l.name "index" = false) →
      IPFSFAISSUtils.get_vectorstore_from_ipfs links cat =
        ⟨Except.error (.unboundLocal "index_hash"), []⟩) ∧
    (links.length = 2 → (∀ l ∈ links, strContains l.name "docstore" = false) →
      (¬ ∀ l ∈ links, strContains l.name "index" = false) →
      IPFSFAISSUtils.get_vectorstore_from_ipfs links cat =
        ⟨Except.error (.unboundLocal "docstore_hash"), []⟩) ∧
    (∀ v, (IPFSFAISSUtils.get_vectorstore_from_ipfs links cat).result = .ok v →
      (∃ l ∈ links, strContains l.name "index" = true) ∧
      (∃ l ∈ links, strContains l.name "docstore" = true)) := by
  refine ⟨?_, ?_, ?_⟩
  · intro hlen hnone
    unfold IPFSFAISSUtils.get_vectorstore_from_ipfs
    rw [if_pos hlen]
    rw [(bindVar_none_iff links "index").mpr hnone]
  · intro hlen hnone hsome
    unfold IPFSFAISSUtils.get_vectorstore_from_ipfs
    rw [if_pos hlen]
    have hidx : IPFSFAISSUtils.bindVar links "index" ≠ none := by
      intro hc
      exact hsome ((bindVar_none_iff links "index").mp hc)
    obtain ⟨ih, hih⟩ := Option.ne_none_iff_exists'.mp hidx
    rw [hih, (bindVar_none_iff links "docstore").mpr hnone]
  · intro v hok
    unfold IPFSFAISSUtils.get_vectorstore_from_ipfs at hok
    by_cases hlen : links.length = 2
    · rw [if_pos hlen] at hok
      constructor
      · cases hidx : IPFSFAISSUtils.bindVar links "index" with
        | none => rw [hidx] at hok; simp at hok
        | some ih =>
          by_contra hc
          push_neg at hc
          have : IPFSFAISSUtils.bindVar links "index" = none :=
            (bindVar_none_iff links "index").mpr (by
              intro l hl
              simpa using hc l hl)
          rw [this] at hidx; cases hidx
      · cases hidx : IPFSFAISSUtils.bindVar links "index" with
        | none => rw [hidx] at hok; simp at hok
        | some ih =>
          rw [hidx] at hok
          cases hds : IPFSFAISSUtils.bindVar links "docstore" with
          | none => rw [hds] at hok; simp at hok
          | some dh =>
            by_contra hc
            push_neg at hc
            have : IPFSFAISSUtils.bindVar links "docstore" = none :=
              (bindVar_none_iff links "docstore").mpr (by
                intro l hl
                simpa using hc l hl)
            rw [this] at hds; cases hds
    · rw [if_neg hlen] at hok; simp at hok

/-- Claim C10, witness. Concrete two-child roots exercising each branch:
no `"index"` name, `"index"` present but no `"docstore"` name, and a
successful binding. -/
theorem C10_unbound_hash_vars_witness :
    IPFSFAISSUtils.get_vectorstore_from_ipfs
      [⟨"a", "h1"⟩, ⟨"b", "h2"⟩] (fun _ => "") =
      ⟨Except.error (.unboundLocal "index_hash"), []⟩ ∧
    IPFSFAISSUtils.get_vectorstore_from_ipfs
      [⟨"a.index", "h1"⟩, ⟨"b", "h2"⟩] (fun _ => "") =
      ⟨Except.error (.unboundLocal "docstore_hash"), []⟩ ∧
    ((∃ l ∈ ([⟨"a.index", "h1"⟩, ⟨"b.docstore", "h2"⟩] : List VLink),
        strContains l.name "index" = true) ∧
     (∃ l ∈ ([⟨"a.index", "h1"⟩, ⟨"b.docstore", "h2"⟩] : List VLink),
        strContains l.name "docstore" = true)) :=
  ⟨(C10_unbound_hash_vars [⟨"a", "h1"⟩, ⟨"b", "h2"⟩] (fun _ => "")).1
      (by decide) (by decide),
   (C10_unbound_hash_vars [⟨"a.index", "h1"⟩, ⟨"b", "h2"⟩] (fun _ => "")).2.1
      (by decide) (by decide) (by decide),
   (C10_unbound_hash_vars [⟨"a.index", "h1"⟩, ⟨"b.docstore", "h2"⟩] (fun _ => "")).2.2
      ⟨"", ""⟩ (by decide)⟩

/-- Claim C9. For each of the three components: in Infura mode with a
missing (or empty) API key or secret, construction raises the
configuration `ValueError` with zero HTTP attempts made; in local mode
construction never raises the configuration error, whatever the
credentials are — it proceeds directly to the daemon check. -/
theorem C9_config_check (cfg : InitConfig) (attempts : Nat → Attempt Unit) :
    (cfg.use_infura = true →
      (credFalsy cfg.infura_api_key = true ∨ credFalsy cfg.infura_api_secret = true) →
      dirInit cfg attempts =
        (Except.error "Infura API key and secret are required when using Infura", 0) ∧
      fileInit cfg attempts =
        (Except.error "Infura API key and secret are required when using Infura", 0) ∧
      utilsInit cfg attempts =
        (Except.error "Infura API key and secret are required when using Infura", 0)) ∧
    (cfg.use_infura = false →
      dirInit cfg attempts =
        ((IPFSDirectoryDataLoader.check_daemon_running attempts).result,
         (IPFSDirectoryDataLoader.check_daemon_running attempts).attemptsMade) ∧
      fileInit cfg attempts =
        ((IPFSFileDataLoader.check_daemon_running attempts).result,
         (IPFSFileDataLoader.check_daemon_running attempts).attemptsMade) ∧
      utilsInit cfg attempts =
        ((IPFSFAISSUtils.check_daemon_running attempts).result,
         (IPFSFAISSUtils.check_daemon_running attempts).attemptsMade)) := by
  constructor
  · intro hinfura hmiss
    have hcond : (cfg.use_infura &&
        (credFalsy cfg.infura_api_key || credFalsy cfg.infura_api_secret)) = true := by
      rcases hmiss with hm | hm <;> simp [hinfura, hm]
    refine ⟨?_, ?_, ?_⟩ <;>
      simp [dirInit, fileInit, utilsInit, initTrace, hcond]
  · intro hlocal
    refine ⟨?_, ?_, ?_⟩ <;>
      simp [dirInit, fileInit, utilsInit, initTrace, hlocal]

/-- Claim C9, witness. Hosted mode with a missing key fails with zero HTTP
attempts in all three components; local mode without credentials runs the
daemon check. -/
theorem C9_config_check_witness :
    (dirInit ⟨true, none, some "s"⟩ (fun _ => Attempt.connError) =
        (Except.error "Infura API key and secret are required when using Infura", 0) ∧
     fileInit ⟨true, none, some "s"⟩ (fun _ => Attempt.connError) =
        (Except.error "Infura API key and secret are required when using Infura", 0) ∧
     utilsInit ⟨true, none, some "s"⟩ (fun _ => Attempt.connError) =
        (Except.error "Infura API key and secret are required when using Infura", 0)) ∧
    (dirInit ⟨false, none, none⟩ (fun _ => Attempt.response 200 ()) =
        ((IPFSDirectoryDataLoader.check_daemon_running
            (fun _ => Attempt.response 200 ())).result,
         (IPFSDirectoryDataLoader.check_daemon_running
            (fun _ => Attempt.response 200 ())).attemptsMade) ∧
     fileInit ⟨false, none, none⟩ (fun _ => Attempt.response 200 ()) =
        ((IPFSFileDataLoader.check_daemon_running
            (fun _ => Attempt.response 200 ())).result,
         (IPFSFileDataLoader.check_daemon_running
            (fun _ => Attempt.response 200 ())).attemptsMade) ∧
     utilsInit ⟨false, none, none⟩ (fun _ => Attempt.response 200 ()) =
        ((IPFSFAISSUtils.check_daemon_running
            (fun _ => Attempt.response 200 ())).result,
         (IPFSFAISSUtils.check_daemon_running
            (fun _ => Attempt.response 200 ())).attemptsMade)) :=
  ⟨(C9_config_check ⟨true, none, some "s"⟩ (fun _ => Attempt.connError)).1
      rfl (Or.inl rfl),
   (C9_config_check ⟨false, none, none⟩ (fun _ => Attempt.response 200 ())).2 rfl⟩

/-- Claim C6. If every HTTP attempt fails with a connection error, the DAG
fetch and the file fetch each raise their terminal error after exactly
`max_retries` attempts (with a sleep of the fixed delay after each), and
each terminal error message contains the target hash. -/
theorem C6_retry_exhaustion {α : Type} (attD : Nat → Attempt α)
    (attF : Nat → Attempt String) (sniff : String → String)
    (run : Reader → String → ReaderResult) (h : String)
    (hcD : ∀ j, attD j = Attempt.connError)
    (hcF : ∀ j, attF j = Attempt.connError) :
    (IPFSDirectoryDataLoader.get_dag_get attD h =
        ⟨Except.error ("Could not get DAG for " ++ h), max_retries, max_retries⟩ ∧
      strContains ("Could not get DAG for " ++ h) h = true) ∧
    (IPFSFileDataLoader.load sniff run attF h =
        ⟨Except.error ("Failed to connect to IPFS daemon for hash " ++ h),
          max_retries, max_retries⟩ ∧
      strContains ("Failed to connect to IPFS daemon for hash " ++ h) h = true) := by
  refine ⟨⟨?_, strContains_append _ h⟩, ⟨?_, strContains_append _ h⟩⟩
  · exact dagGetLoop_all_conn attD h hcD max_retries 0
  · exact loadLoop_all_conn sniff run attF h hcF max_retries 0

/-- Claim C6, witness. A permanently unreachable daemon: both fetches make
exactly five attempts and then raise, the message naming the hash. -/
theorem C6_retry_exhaustion_witness :
    (IPFSDirectoryDataLoader.get_dag_get (fun _ => (Attempt.connError : Attempt Unit)) "QmZ" =
        ⟨Except.error ("Could not get DAG for " ++ "QmZ"), max_retries, max_retries⟩ ∧
      strContains ("Could not get DAG for " ++ "QmZ") "QmZ" = true) ∧
    (IPFSFileDataLoader.load (fun _ => "text/plain") (fun _ c => ReaderResult.rstr c)
        (fun _ => Attempt.connError) "QmZ" =
        ⟨Except.error ("Failed to connect to IPFS daemon for hash " ++ "QmZ"),
          max_retries, max_retries⟩ ∧
      strContains ("Failed to connect to IPFS daemon for hash " ++ "QmZ") "QmZ" = true) :=
  C6_retry_exhaustion (fun _ => (Attempt.connError : Attempt Unit))
    (fun _ => Attempt.connError) (fun _ => "text/plain") (fun _ c => ReaderResult.rstr c)
    "QmZ" (fun _ => rfl) (fun _ => rfl)

/-- Claim C4. During a directory load, each collected file is loaded inside
its own exception handler: the files whose load raises are omitted and
the (tagged) result of every other file is returned, in order; one failure
never aborts the batch. The returned list is exactly the element-wise
image of the successfully loaded files. -/
theorem C4_per_file_isolation (dag : String → DagNode)
    (fileload : String → Except String FileLoadResult) (fuel : Nat) (root : String)
    (files : List (String × String))
    (hf : IPFSDirectoryDataLoader.recursive_dag_get dag fuel root = some files) :
    IPFSDirectoryDataLoader.load dag fileload fuel root =
      some (files.filterMap (fun hn =>
        match fileload hn.1 with
        | .error _ => none
        | .ok d => some (IPFSDirectoryDataLoader.setSource d hn.2))) := by
  unfold IPFSDirectoryDataLoader.load
  rw [hf]
  simp [loadFilesAux_eq]

/-- Claim C4, witness. A three-file directory where the load of the middle file
raises: the load returns the documents of the first and third files. -/
theorem C4_per_file_isolation_witness :
    IPFSDirectoryDataLoader.load
      (fun h => if h = "R" then
          ⟨[⟨some "A", "a.txt"⟩, ⟨some "B", "b.txt"⟩, ⟨some "C", "c.txt"⟩]⟩
        else ⟨[]⟩)
      (fun x => if x = "B" then Except.error "boom"
        else Except.ok (FileLoadResult.single ⟨x, []⟩))
      5 "R" =
      some [FileLoadResult.single ⟨"A", [("source", "a.txt")]⟩,
            FileLoadResult.single ⟨"C", [("source", "c.txt")]⟩] :=
  C4_per_file_isolation
    (fun h => if h = "R" then
        ⟨[⟨some "A", "a.txt"⟩, ⟨some "B", "b.txt"⟩, ⟨some "C", "c.txt"⟩]⟩
      else ⟨[]⟩)
    (fun x => if x = "B" then Except.error "boom"
      else Except.ok (FileLoadResult.single ⟨x, []⟩))
    5 "R" [("A", "a.txt"), ("B", "b.txt"), ("C", "c.txt")] rfl

/-- Claim C1, counterexample. The claim states that every fetch operation
raises immediately on a non-success HTTP status. The file fetch does not:
with a 500 response on the first attempt it merely logs, consumes the
next attempt (without sleeping) and succeeds there — two attempts made,
no exception raised. -/
theorem C1_counterexample :
    responseOk 500 = false ∧
    IPFSFileDataLoader.load (fun _ => "text/plain") (fun _ c => ReaderResult.rstr c)
      (fun i => if i = 0 then Attempt.response 500 "x" else Attempt.response 200 "hello")
      "QmA" =
      ⟨Except.ok (FileLoadResult.single
          ⟨"hello", [("ipfs_hash", "QmA"), ("file_type", "text/plain")]⟩), 2, 0⟩ := by
  exact ⟨by decide, by decide⟩

/-- Claim C1, amended. On a non-success status the daemon check and the DAG
fetch raise immediately, with one attempt consumed and no sleep; the file
fetch instead logs the failure and continues with the next attempt,
consuming it without sleeping, and raises its terminal error only at the
retry ceiling. In all three operations a connection-level failure sleeps
the fixed delay and retries. -/
theorem C1_amended {α : Type} (attU : Nat → Attempt Unit) (attD : Nat → Attempt α)
    (attF : Nat → Attempt String) (sniff : String → String)
    (run : Reader → String → ReaderResult) (h : String) (s : Nat) (b : α) (c : String)
    (i r : Nat) :
    (attU i = Attempt.response s () → s ≠ 200 →
      IPFSDirectoryDataLoader.checkDaemonLoop attU i (r + 1) =
        ⟨Except.error "IPFS daemon not running or not accessible", 1, 0⟩) ∧
    (attD i = Attempt.response s b → s ≠ 200 →
      IPFSDirectoryDataLoader.dagGetLoop attD h i (r + 1) =
        ⟨Except.error ("Failed to get DAG for " ++ h ++ " with status code " ++ toString s),
          1, 0⟩) ∧
    (attF i = Attempt.response s c → responseOk s = false →
      IPFSFileDataLoader.loadLoop sniff run attF h i (r + 1) =
        ⟨(IPFSFileDataLoader.loadLoop sniff run attF h (i + 1) r).result,
         (IPFSFileDataLoader.loadLoop sniff run attF h (i + 1) r).attemptsMade + 1,
         (IPFSFileDataLoader.loadLoop sniff run attF h (i + 1) r).sleeps⟩) ∧
    (attU i = Attempt.connError →
      IPFSDirectoryDataLoader.checkDaemonLoop attU i (r + 1) =
        ⟨(IPFSDirectoryDataLoader.checkDaemonLoop attU (i + 1) r).result,
         (IPFSDirectoryDataLoader.checkDaemonLoop attU (i + 1) r).attemptsMade + 1,
         (IPFSDirectoryDataLoader.checkDaemonLoop attU (i + 1) r).sleeps + 1⟩) ∧
    (attD i = Attempt.connError →
      IPFSDirectoryDataLoader.dagGetLoop attD h i (r + 1) =
        ⟨(IPFSDirectoryDataLoader.dagGetLoop attD h (i + 1) r).result,
         (IPFSDirectoryDataLoader.dagGetLoop attD h (i + 1) r).attemptsMade + 1,
         (IPFSDirectoryDataLoader.dagGetLoop attD h (i + 1) r).sleeps + 1⟩) ∧
    (attF i = Attempt.connError →
      IPFSFileDataLoader.loadLoop sniff run attF h i (r + 1) =
        ⟨(IPFSFileDataLoader.loadLoop sniff run attF h (i + 1) r).result,
         (IPFSFileDataLoader.loadLoop sniff run attF h (i + 1) r).attemptsMade + 1,
         (IPFSFileDataLoader.loadLoop sniff run attF h (i + 1) r).sleeps + 1⟩) := by
  refine ⟨?_, ?_, ?_, ?_, ?_, ?_⟩ <;> intro ha
  · intro hs
    simp [IPFSDirectoryDataLoader.checkDaemonLoop, ha, hs]
  · intro hs
    simp [IPFSDirectoryDataLoader.dagGetLoop, ha, hs]
  · intro hs
    simp [IPFSFileDataLoader.loadLoop, ha, hs]
  · simp [IPFSDirectoryDataLoader.checkDaemonLoop, ha]
  · simp [IPFSDirectoryDataLoader.dagGetLoop, ha]
  · simp [IPFSFileDataLoader.loadLoop, ha]

/-- Claim C1, amended, witness. The six behaviours at concrete inputs: a
403 response and a connection error on the first attempt, for each of the
three operations. -/
theorem C1_amended_witness :
    (IPFSDirectoryDataLoader.checkDaemonLoop (fun _ => Attempt.response 403 ()) 0 5 =
      ⟨Except.error "IPFS daemon not running or not accessible", 1, 0⟩) ∧
    (IPFSDirectoryDataLoader.dagGetLoop (fun _ => Attempt.response 403 (0 : Nat)) "QmB" 0 5 =
      ⟨Except.error ("Failed to get DAG for " ++ "QmB" ++ " with status code " ++
          toString 403), 1, 0⟩) ∧
    (IPFSFileDataLoader.loadLoop (fun _ => "text/plain") (fun _ c => ReaderResult.rstr c)
        (fun _ => Attempt.response 403 "x") "QmB" 0 5 =
      ⟨(IPFSFileDataLoader.loadLoop (fun _ => "text/plain") (fun _ c => ReaderResult.rstr c)
          (fun _ => Attempt.response 403 "x") "QmB" 1 4).result,
       (IPFSFileDataLoader.loadLoop (fun _ => "text/plain") (fun _ c => ReaderResult.rstr c)
          (fun _ => Attempt.response 403 "x") "QmB" 1 4).attemptsMade + 1,
       (IPFSFileDataLoader.loadLoop (fun _ => "text/plain") (fun _ c => ReaderResult.rstr c)
          (fun _ => Attempt.response 403 "x") "QmB" 1 4).sleeps⟩) ∧
    (IPFSDirectoryDataLoader.checkDaemonLoop (fun _ => Attempt.connError) 0 5 =
      ⟨(IPFSDirectoryDataLoader.checkDaemonLoop (fun _ => Attempt.connError) 1 4).result,
       (IPFSDirectoryDataLoader.checkDaemonLoop (fun _ => Attempt.connError) 1 4).attemptsMade + 1,
       (IPFSDirectoryDataLoader.checkDaemonLoop (fun _ => Attempt.connError) 1 4).sleeps + 1⟩) ∧
    (IPFSDirectoryDataLoader.dagGetLoop (fun _ => (Attempt.connError : Attempt Nat)) "QmB" 0 5 =
      ⟨(IPFSDirectoryDataLoader.dagGetLoop (fun _ => (Attempt.connError : Attempt Nat)) "QmB" 1 4).result,
       (IPFSDirectoryDataLoader.dagGetLoop (fun _ => (Attempt.connError : Attempt Nat)) "QmB" 1 4).attemptsMade + 1,
       (IPFSDirectoryDataLoader.dagGetLoop (fun _ => (Attempt.connError : Attempt Nat)) "QmB" 1 4).sleeps + 1⟩) ∧
    (IPFSFileDataLoader.loadLoop (fun _ => "text/plain") (fun _ c => ReaderResult.rstr c)
        (fun _ => Attempt.connError) "QmB" 0 5 =
      ⟨(IPFSFileDataLoader.loadLoop (fun _ => "text/plain") (fun _ c => ReaderResult.rstr c)
          (fun _ => Attempt.connError) "QmB" 1 4).result,
       (IPFSFileDataLoader.loadLoop (fun _ => "text/plain") (fun _ c => ReaderResult.rstr c)
          (fun _ => Attempt.connError) "QmB" 1 4).attemptsMade + 1,
       (IPFSFileDataLoader.loadLoop (fun _ => "text/plain") (fun _ c => ReaderResult.rstr c)
          (fun _ => Attempt.connError) "QmB" 1 4).sleeps + 1⟩) :=
  ⟨(C1_amended (fun _ => Attempt.response 403 ()) (fun _ => Attempt.response 403 (0 : Nat))
      (fun _ => Attempt.response 403 "x") (fun _ => "text/plain")
      (fun _ c => ReaderResult.rstr c) "QmB" 403 (0 : Nat) "x" 0 4).1 rfl (by decide),
   (C1_amended (fun _ => Attempt.response 403 ()) (fun _ => Attempt.response 403 (0 : Nat))
      (fun _ => Attempt.response 403 "x") (fun _ => "text/plain")
      (fun _ c => ReaderResult.rstr c) "QmB" 403 (0 : Nat) "x" 0 4).2.1 rfl (by decide),
   (C1_amended (fun _ => Attempt.response 403 ()) (fun _ => Attempt.response 403 (0 : Nat))
      (fun _ => Attempt.response 403 "x") (fun _ => "text/plain")
      (fun _ c => ReaderResult.rstr c) "QmB" 403 (0 : Nat) "x" 0 4).2.2.1 rfl (by decide),
   (C1_amended (fun _ => Attempt.connError) (fun _ => (Attempt.connError : Attempt Nat))
      (fun _ => Attempt.connError) (fun _ => "text/plain")
      (fun _ c => ReaderResult.rstr c) "QmB" 403 (0 : Nat) "x" 0 4).2.2.2.1 rfl,
   (C1_amended (fun _ => Attempt.connError) (fun _ => (Attempt.connError : Attempt Nat))
      (fun _ => Attempt.connError) (fun _ => "text/plain")
      (fun _ c => ReaderResult.rstr c) "QmB" 403 (0 : Nat) "x" 0 4).2.2.2.2.1 rfl,
   (C1_amended (fun _ => Attempt.connError) (fun _ => (Attempt.connError : Attempt Nat))
      (fun _ => Attempt.connError) (fun _ => "text/plain")
      (fun _ c => ReaderResult.rstr c) "QmB" 403 (0 : Nat) "x" 0 4).2.2.2.2.2 rfl⟩

theorem recDagNode_calls_head (dag : String → DagNode) (fuel : Nat) (h : String)
    (files : List (String × String)) (calls : List String)
    (hres : IPFSDirectoryDataLoader.recDagNode dag fuel h = some (files, calls)) :
    ∃ c, calls = h :: c := by
  cases fuel with
  | zero => cases hres
  | succ f =>
    rw [IPFSDirectoryDataLoader.recDagNode] at hres
    split at hres
    · cases hres
    · rename_i files' calls' heq
      injection hres with hp
      injection hp with hf hc
      exact ⟨calls', hc.symm⟩

theorem recDagLinks_mem (next : String → Option (List (String × String) × List String))
    (L : List Link) :
    ∀ files calls, IPFSDirectoryDataLoader.recDagLinks next L = some (files, calls) →
    ∀ l ∈ L,
      (linkTruthy l.hash = true →
        ∃ sf sc, next (theHash l.hash) = some (sf, sc) ∧ ∀ x ∈ sc, x ∈ calls) ∧
      ((linkTruthy l.hash && (l.name != "") && hasFileExtension l.name) = true →
        (theHash l.hash, l.name) ∈ files) := by
  induction L with
  | nil => intro files calls _ l hl; cases hl
  | cons a rest ih =>
    intro files calls hres l hl
    rw [IPFSDirectoryDataLoader.recDagLinks] at hres
    split at hres
    · cases hres
    · rename_i sf sc hsub
      split at hres
      · cases hres
      · rename_i rf rc hrest
        injection hres with hp
        injection hp with hf hc
        rcases List.mem_cons.mp hl with rfl | hmem
        · constructor
          · intro htr
            rw [if_pos htr] at hsub
            exact ⟨sf, sc, hsub, fun x hx => by
              rw [← hc]; exact List.mem_append_left _ hx⟩
          · intro hcoll
            rw [← hf, if_pos hcoll]
            exact List.mem_append_left _ (List.mem_append_right _ (by simp))
        · have := ih rf rc hrest l hmem
          refine ⟨fun htr => ?_, fun hcoll => ?_⟩
          · obtain ⟨sf', sc', hnext, hsubset⟩ := this.1 htr
            exact ⟨sf', sc', hnext, fun x hx => by
              rw [← hc]; exact List.mem_append_right _ (hsubset x hx)⟩
          · have hmemf := this.2 hcoll
            rw [← hf]
            exact List.mem_append_right _ hmemf

theorem recDagLinks_files_ext
    (next : String → Option (List (String × String) × List String))
    (hnext : ∀ x f c, next x = some (f, c) → ∀ hn ∈ f, hasFileExtension hn.2 = true)
    (L : List Link) :
    ∀ files calls, IPFSDirectoryDataLoader.recDagLinks next L = some (files, calls) →
    ∀ hn ∈ files, hasFileExtension hn.2 = true := by
  induction L with
  | nil =>
    intro files calls hres hn hmem
    rw [IPFSDirectoryDataLoader.recDagLinks] at hres
    injection hres with hp
    injection hp with hf _
    rw [← hf] at hmem
    cases hmem
  | cons a rest ih =>
    intro files calls hres hn hmem
    rw [IPFSDirectoryDataLoader.recDagLinks] at hres
    split at hres
    · cases hres
    · rename_i sf sc hsub
      split at hres
      · cases hres
      · rename_i rf rc hrest
        injection hres with hp
        injection hp with hf _
        rw [← hf] at hmem
        rcases List.mem_append.mp hmem with hm | hm
        rotate_left
        · exact ih rf rc hrest hn hm
        rcases List.mem_append.mp hm with hm' | hm'
        · by_cases htr : linkTruthy a.hash = true
          · rw [if_pos htr] at hsub
            exact hnext _ sf sc hsub hn hm'
          · rw [if_neg htr] at hsub
            injection hsub with hq
            injection hq with hsf _
            rw [← hsf] at hm'
            cases hm'
        · by_cases hcoll : (linkTruthy a.hash && (a.name != "") && hasFileExtension a.name) = true
          · rw [if_pos hcoll] at hm'
            rcases List.mem_singleton.mp hm' with rfl
            simp only []
            exact (Bool.and_eq_true _ _ |>.mp hcoll).2
          · rw [if_neg hcoll] at hm'
            cases hm'

theorem recDagNode_files_ext (dag : String → DagNode) :
    ∀ fuel h files calls,
      IPFSDirectoryDataLoader.recDagNode dag fuel h = some (files, calls) →
      ∀ hn ∈ files, hasFileExtension hn.2 = true := by
  intro fuel
  induction fuel with
  | zero => intro h files calls hres; cases hres
  | succ f ih =>
    intro h files calls hres
    rw [IPFSDirectoryDataLoader.recDagNode] at hres
    split at hres
    · cases hres
    · rename_i files' calls' heq
      injection hres with hp
      injection hp with hf _
      rw [← hf]
      exact recDagLinks_files_ext _ (fun x fl cl hx => ih x fl cl hx) _ _ _ heq

/-- Claim C3, counterexample. The claim states the file/directory
treatments are mutually exclusive: a link whose name contains a period is
collected and (only) period-free links are recursed into. In `chainDag`
the only link of the root is the file-named `a.txt` (hash `A`), yet the
traversal recurses into `A` as well: it fetches `A` and the leaf `B`
below it, and collects the file entry `b.txt` under `B` in addition to
`a.txt`. -/
theorem C3_counterexample :
    hasFileExtension "a.txt" = true ∧
    IPFSDirectoryDataLoader.recursive_dag_get chainDag 5 "R" =
      some [("B", "b.txt"), ("A", "a.txt")] ∧
    IPFSDirectoryDataLoader.dagGetCalls chainDag 5 "R" = some ["R", "A", "B"] := by
  refine ⟨by decide, by decide, by decide⟩

/-- Claim C3, amended. In the directory traversal, *every* link with a
truthy hash is recursed into, whether or not its name contains a period;
a link is additionally collected as a file exactly when its hash is
truthy, its name is nonempty and its name contains a period; and a link
whose name lacks a period is never part of the collected results. -/
theorem C3_amended (dag : String → DagNode) (fuel : Nat) (h : String)
    (files : List (String × String)) (calls : List String)
    (hres : IPFSDirectoryDataLoader.recDagNode dag (fuel + 1) h = some (files, calls)) :
    (∀ l ∈ (dag h).links, linkTruthy l.hash = true →
      ∃ p, IPFSDirectoryDataLoader.recDagNode dag fuel (theHash l.hash) = some p ∧
        theHash l.hash ∈ calls) ∧
    (∀ l ∈ (dag h).links,
      (linkTruthy l.hash && (l.name != "") && hasFileExtension l.name) = true →
      (theHash l.hash, l.name) ∈ files) ∧
    (∀ hn ∈ files, hasFileExtension hn.2 = true) := by
  have hext := recDagNode_files_ext dag (fuel + 1) h files calls hres
  rw [IPFSDirectoryDataLoader.recDagNode] at hres
  split at hres
  · cases hres
  · rename_i files' calls' heq
    injection hres with hp
    injection hp with hf hc
    refine ⟨?_, ?_, hext⟩
    · intro l hl htr
      obtain ⟨sf, sc, hnext, hsubset⟩ :=
        (recDagLinks_mem _ _ files' calls' heq l hl).1 htr
      obtain ⟨c, hcshape⟩ :=
        recDagNode_calls_head dag fuel (theHash l.hash) sf sc hnext
      refine ⟨(sf, sc), hnext, ?_⟩
      rw [← hc]
      exact List.mem_cons_of_mem _ (hsubset _ (by rw [hcshape]; simp))
    · intro l hl hcoll
      rw [← hf]
      exact (recDagLinks_mem _ _ files' calls' heq l hl).2 hcoll

/-- Claim C3, amended, witness. The amended statement evaluated on
`chainDag`: the file-named root link `a.txt` is recursed into, is
collected, and all collected names carry extensions. -/
theorem C3_amended_witness :
    (∀ l ∈ (chainDag "R").links, linkTruthy l.hash = true →
      ∃ p, IPFSDirectoryDataLoader.recDagNode chainDag 4 (theHash l.hash) = some p ∧
        theHash l.hash ∈ ["R", "A", "B"]) ∧
    (∀ l ∈ (chainDag "R").links,
      (linkTruthy l.hash && (l.name != "") && hasFileExtension l.name) = true →
      (theHash l.hash, l.name) ∈ [("B", "b.txt"), ("A", "a.txt")]) ∧
    (∀ hn ∈ [("B", "b.txt"), ("A", "a.txt")], hasFileExtension hn.2 = true) :=
  C3_amended chainDag 4 "R" [("B", "b.txt"), ("A", "a.txt")] ["R", "A", "B"] (by decide)

theorem getMeta_setMeta (doc : Document) (k v : String) :
    getMeta (setMeta doc k v) k = some v := by
  simp [getMeta, setMeta]

theorem sourceOf_setSource (res : FileLoadResult) (n : String) :
    ∀ s ∈ sourceOf (IPFSDirectoryDataLoader.setSource res n), s = some n := by
  cases res with
  | single doc => simp [sourceOf, IPFSDirectoryDataLoader.setSource, getMeta_setMeta]
  | multi docs =>
    intro s hs
    simp only [sourceOf, IPFSDirectoryDataLoader.setSource, List.map_map,
      List.mem_map] at hs
    obtain ⟨d, _, rfl⟩ := hs
    exact getMeta_setMeta d "source" n

theorem recDagLinks_flat (dag : String → DagNode) (k : Nat) (L : List Link)
    (hL : ∀ l ∈ L, linkTruthy l.hash = true ∧ (l.name != "") = true ∧
       hasFileExtension l.name = true ∧ (dag (theHash l.hash)).links = []) :
    IPFSDirectoryDataLoader.recDagLinks
        (IPFSDirectoryDataLoader.recDagNode dag (k + 1)) L =
      some (L.map (fun l => (theHash l.hash, l.name)),
            L.map (fun l => theHash l.hash)) := by
  induction L with
  | nil => rfl
  | cons l rest ih =>
    obtain ⟨ht, hn, he, hflat⟩ := hL l (by simp)
    have hsub : IPFSDirectoryDataLoader.recDagNode dag (k + 1) (theHash l.hash) =
        some ([], [theHash l.hash]) := by
      rw [IPFSDirectoryDataLoader.recDagNode, hflat]
      rfl
    rw [IPFSDirectoryDataLoader.recDagLinks, if_pos ht, hsub,
      ih (fun x hx => hL x (by simp [hx]))]
    simp [ht, hn, he]

theorem loadFiles_all_ok (fileload : String → Except String FileLoadResult)
    (d : Link → FileLoadResult) (L : List Link)
    (hok : ∀ l ∈ L, fileload (theHash l.hash) = .ok (d l)) :
    (L.map (fun l => (theHash l.hash, l.name))).filterMap (fun hn =>
        match fileload hn.1 with
        | .error _ => none
        | .ok dd => some (IPFSDirectoryDataLoader.setSource dd hn.2)) =
      L.map (fun l => IPFSDirectoryDataLoader.setSource (d l) l.name) := by
  induction L with
  | nil => rfl
  | cons l rest ih =>
    simp only [List.map_cons, List.filterMap_cons, hok l (by simp),
      ih (fun x hx => hok x (by simp [hx]))]

/-- Claim C5. For a directory whose resolved DAG consists of leaf files with
truthy hashes and extension-bearing nonempty names directly under the
root, and whose individual file loads succeed, the directory loader
returns exactly one result per link, in link order, and every document in
each result carries `source` metadata equal to the name of that link. -/
theorem C5_flat_directory (dag : String → DagNode)
    (fileload : String → Except String FileLoadResult) (d : Link → FileLoadResult)
    (root : String) (fuel : Nat) (hfuel : 2 ≤ fuel)
    (hlinks : ∀ l ∈ (dag root).links, linkTruthy l.hash = true ∧ (l.name != "") = true ∧
       hasFileExtension l.name = true ∧ (dag (theHash l.hash)).links = [])
    (hok : ∀ l ∈ (dag root).links, fileload (theHash l.hash) = .ok (d l)) :
    IPFSDirectoryDataLoader.load dag fileload fuel root =
      some ((dag root).links.map
        (fun l => IPFSDirectoryDataLoader.setSource (d l) l.name)) ∧
    (∀ l ∈ (dag root).links,
      ∀ s ∈ sourceOf (IPFSDirectoryDataLoader.setSource (d l) l.name),
        s = some l.name) := by
  obtain ⟨k, rfl⟩ : ∃ k, fuel = k + 2 := ⟨fuel - 2, by omega⟩
  constructor
  · have hnode : IPFSDirectoryDataLoader.recDagNode dag (k + 2) root =
        some ((dag root).links.map (fun l => (theHash l.hash, l.name)),
          root :: (dag root).links.map (fun l => theHash l.hash)) := by
      rw [IPFSDirectoryDataLoader.recDagNode, recDagLinks_flat dag k _ hlinks]
    rw [IPFSDirectoryDataLoader.load, IPFSDirectoryDataLoader.recursive_dag_get, hnode]
    simp only [Option.map_some, Option.map]
    rw [loadFilesAux_eq]
    rw [loadFiles_all_ok fileload d _ hok]
    simp
  · intro l _ s hs
    exact sourceOf_setSource (d l) l.name s hs

/-- Claim C5, witness. A two-file flat directory with successful loads: the
loader returns the two tagged documents, whose `source` metadata are the
link names. -/
theorem C5_flat_directory_witness :
    IPFSDirectoryDataLoader.load flatDag
      (fun x => Except.ok (FileLoadResult.single ⟨x, []⟩)) 2 "R" =
      some ((flatDag "R").links.map
        (fun l => IPFSDirectoryDataLoader.setSource
          (FileLoadResult.single ⟨theHash l.hash, []⟩) l.name)) ∧
    (∀ l ∈ (flatDag "R").links,
      ∀ s ∈ sourceOf (IPFSDirectoryDataLoader.setSource
          (FileLoadResult.single ⟨theHash l.hash, []⟩) l.name),
        s = some l.name) :=
  C5_flat_directory flatDag
    (fun x => Except.ok (FileLoadResult.single ⟨x, []⟩))
    (fun l => FileLoadResult.single ⟨theHash l.hash, []⟩)
    "R" 2 (by decide) (by decide) (by decide)

theorem countOcc_append (t : String) (a b : List String) :
    countOcc t (a ++ b) = countOcc t a + countOcc t b := by
  induction a with
  | nil => simp [countOcc]
  | cons x rest ih =>
    show (if x = t then 1 else 0) + countOcc t (rest ++ b) =
      ((if x = t then 1 else 0) + countOcc t rest) + countOcc t b
    rw [ih]
    omega

theorem recDagLinks_count
    (next : String → Option (List (String × String) × List String))
    (pc : String → String → Nat) (L : List Link)
    (hL : ∀ l ∈ L, linkTruthy l.hash = true →
      ∃ p, next (theHash l.hash) = some p ∧
        ∀ t, countOcc t p.2 = pc (theHash l.hash) t) :
    ∃ F C, IPFSDirectoryDataLoader.recDagLinks next L = some (F, C) ∧
      ∀ t, countOcc t C = pathCountLinks (fun x => pc x t) L := by
  induction L with
  | nil => exact ⟨[], [], rfl, by intro t; simp [countOcc, pathCountLinks]⟩
  | cons l rest ih =>
    obtain ⟨F, C, hres, hcount⟩ := ih (fun x hx => hL x (by simp [hx]))
    by_cases htr : linkTruthy l.hash = true
    · obtain ⟨⟨sf, sc⟩, hnext, hpc⟩ := hL l (by simp) htr
      refine ⟨sf ++ (if linkTruthy l.hash && (l.name != "") && hasFileExtension l.name
          then [(theHash l.hash, l.name)] else []) ++ F, sc ++ C, ?_, ?_⟩
      · rw [IPFSDirectoryDataLoader.recDagLinks, if_pos htr, hnext, hres]
      · intro t
        rw [countOcc_append, hcount t, hpc t]
        simp [pathCountLinks, htr]
    · refine ⟨[] ++ (if linkTruthy l.hash && (l.name != "") && hasFileExtension l.name
          then [(theHash l.hash, l.name)] else []) ++ F, [] ++ C, ?_, ?_⟩
      · rw [IPFSDirectoryDataLoader.recDagLinks, if_neg htr, hres]
      · intro t
        rw [List.nil_append, hcount t]
        simp only [Bool.not_eq_true] at htr
        simp [pathCountLinks, htr]

/-- Claim C8, counterexample. The claim bounds the number of `dag/get`
invocations on a hash by its static link count (plus one for the root).
In `diamondDag`, the hash `D` is linked exactly once in the whole
structure (under `C`), is not the root, yet the traversal fetches it
twice, because its ancestor `C` is linked from both `A` and `B` and is
therefore visited twice. -/
theorem C8_counterexample :
    IPFSDirectoryDataLoader.dagGetCalls diamondDag 9 "R" =
      some ["R", "A", "C", "D", "B", "C", "D"] ∧
    countOcc "D" ["R", "A", "C", "D", "B", "C", "D"] = 2 ∧
    (["R", "A", "B", "C", "D"].map (fun h =>
      ((diamondDag h).links.filter (fun l => theHash l.hash == "D")).length)).sum = 1 ∧
    "D" ≠ "R" := by
  refine ⟨by decide, by decide, by decide, by decide⟩

/-- Claim C8, amended. Under the precondition that the remote structure is
acyclic (witnessed by a rank function decreasing along truthy links), the
recursive traversal terminates when given fuel above the rank of the root, and
it invokes `dag/get` on each hash exactly as many times as there are
directed link paths from the root to that hash (the root itself counted
once, for the empty path) — which can exceed the number of times the hash
is linked when an ancestor is multiply linked. No cycle detection is
performed. -/
theorem C8_amended (dag : String → DagNode) (r : String → Nat)
    (hacy : ∀ h, ∀ l ∈ (dag h).links, linkTruthy l.hash = true →
      r (theHash l.hash) < r h) :
    ∀ fuel h, r h < fuel →
      ∃ files calls,
        IPFSDirectoryDataLoader.recDagNode dag fuel h = some (files, calls) ∧
        ∀ t, countOcc t calls = pathCount dag fuel h t := by
  intro fuel
  induction fuel with
  | zero => intro h hf; omega
  | succ f ih =>
    intro h hf
    have hlinks : ∀ l ∈ (dag h).links, linkTruthy l.hash = true →
        ∃ p, IPFSDirectoryDataLoader.recDagNode dag f (theHash l.hash) = some p ∧
          ∀ t, countOcc t p.2 = pathCount dag f (theHash l.hash) t := by
      intro l hl htr
      have hrank := hacy h l hl htr
      obtain ⟨fl, cl, hres, hcnt⟩ := ih (theHash l.hash) (by omega)
      exact ⟨(fl, cl), hres, hcnt⟩
    obtain ⟨F, C, hres, hcount⟩ :=
      recDagLinks_count (IPFSDirectoryDataLoader.recDagNode dag f)
        (pathCount dag f) (dag h).links hlinks
    refine ⟨F, h :: C, ?_, ?_⟩
    · rw [IPFSDirectoryDataLoader.recDagNode, hres]
    · intro t
      simp only [countOcc, hcount t, pathCount]

/-- Claim C8, amended, witness. On `diamondDag`, ranked by `diamondRank`,
the traversal from `R` with fuel 5 completes and the call counts agree
with the path counts. -/
theorem C8_amended_witness :
    ∃ files calls,
      IPFSDirectoryDataLoader.recDagNode diamondDag 5 "R" = some (files, calls) ∧
      ∀ t, countOcc t calls = pathCount diamondDag 5 "R" t :=
  C8_amended diamondDag diamondRank
    (by
      intro h l hl htr
      simp only [diamondDag] at hl
      split_ifs at hl with h1 h2 h3 h4
      · subst h1
        simp at hl
        rcases hl with rfl | rfl <;> decide
      · subst h2
        simp at hl
        subst hl
        decide
      · subst h3
        simp at hl
        subst hl
        decide
      · subst h4
        simp at hl
        subst hl
        decide
      · simp at hl)
    5 "R" (by decide)
